import Mathlib

/-
Verification of the B2B Sheet Generator frontend core: the job orchestrator
(`App.tsx`), the synthetic progress estimator (`startProgressSimulation`),
and the result-schema derivation rules (`ResultsSection.tsx`,
`UploadSection` in `ProcessingSection.tsx`).

JavaScript numbers are modelled as rationals (`ℚ`); JavaScript scalars that
may be `null`, a string, or a number are modelled by `JSValue`.  Stateful
React `useState` updates are modelled by explicit state-passing over the
`AppState` record.
-/

namespace B2BSheet

/-- A JavaScript scalar as stored in an extracted field: `null`, a string,
or a finite number (modelled as a rational; JSON cannot carry NaN/Infinity). -/
inductive JSValue
  | null
  | str (s : String)
  | num (q : ℚ)
deriving DecidableEq

/-- JavaScript truthiness of such a scalar: `null`, the empty string and the
number 0 are falsy, everything else is truthy. -/
def truthy : JSValue → Bool
  | JSValue.null => false
  | JSValue.str s => decide (s ≠ "")
  | JSValue.num q => decide (q ≠ 0)

/-- Model of `ConfidenceValue` from `types/extraction.ts`: an extracted scalar paired
with the confidence the extractor reported. -/
structure ConfidenceValue where
  value : JSValue
  confidence : ℚ
deriving DecidableEq

/-- Model of `Address` from `types/extraction.ts`. -/
structure Address where
  name : ConfidenceValue
  address : ConfidenceValue
  city : ConfidenceValue
  state : ConfidenceValue
  zip_code : ConfidenceValue
  country : ConfidenceValue
  phone : ConfidenceValue
  email : ConfidenceValue
deriving DecidableEq

/-- Model of `LineItem` from `types/extraction.ts`. -/
structure LineItem where
  description : ConfidenceValue
  hs_code_origin : ConfidenceValue
  hs_code_destination : ConfidenceValue
  quantity : ConfidenceValue
  unit_price_usd : ConfidenceValue
  total_price_usd : ConfidenceValue
  unit_weight_kg : ConfidenceValue
  igst_percent : ConfidenceValue
deriving DecidableEq

/-- Model of `BoxItem` from `types/extraction.ts`. -/
structure BoxItem where
  description : ConfidenceValue
  quantity : ConfidenceValue
deriving DecidableEq

/-- Model of `Box` from `types/extraction.ts`. -/
structure Box where
  box_number : ConfidenceValue
  length_cm : ConfidenceValue
  width_cm : ConfidenceValue
  height_cm : ConfidenceValue
  gross_weight_kg : ConfidenceValue
  net_weight_kg : ConfidenceValue
  items : List BoxItem
  destination_id : ConfidenceValue
  receiver : Option Address
deriving DecidableEq

/-- Model of `Destination` from `types/extraction.ts`. -/
structure Destination where
  id : String
  name : ConfidenceValue
  address : Address
deriving DecidableEq

/-- Model of `InvoiceData` from `types/extraction.ts`. -/
structure InvoiceData where
  invoice_number : ConfidenceValue
  invoice_date : ConfidenceValue
  currency : ConfidenceValue
  total_amount : ConfidenceValue
  exporter : Address
  consignee : Address
  ship_to : Address
  ior : Address
  line_items : List LineItem
deriving DecidableEq

/-- Model of `PackingListData` from `types/extraction.ts`. -/
structure PackingListData where
  total_boxes : ConfidenceValue
  total_net_weight_kg : ConfidenceValue
  total_gross_weight_kg : ConfidenceValue
  boxes : List Box
  destinations : List Destination
deriving DecidableEq

/-- Model of `ExtractionResult` from `types/extraction.ts`. -/
structure ExtractionResult where
  job_id : String
  status : String
  overall_confidence : ℚ
  invoice : InvoiceData
  packing_list : PackingListData
  warnings : List String
  errors : List String
deriving DecidableEq

/-- Model of `JobStatus` from `types/extraction.ts` (transport envelope of the
terminal response). -/
structure JobStatus where
  job_id : String
  status : String
  progress : ℚ
  message : String
  result : Option ExtractionResult
  multi_address_download : Option String
  simplified_download : Option String
deriving DecidableEq

/-- The `output_currency` selector of `ExtractionOptions`. -/
inductive Currency
  | auto
  | usd
  | inr
deriving DecidableEq

/-- Model of `ExtractionOptions` from `types/extraction.ts`. -/
structure ExtractionOptions where
  output_currency : Currency
  exchange_rate : Option ℚ
  sync_hs_codes : Bool
deriving DecidableEq

/-- An uploaded file, treated as a black box by the core (only its identity
matters for the retry contract). -/
structure UploadedFile where
  name : String
deriving DecidableEq

/-- Model of `ViewState` from `App.tsx`. -/
inductive ViewState
  | upload
  | processing
  | results
deriving DecidableEq

/-- The `useState` cells of `App` in `App.tsx`, plus `simRunning` for the
live progress-simulation interval and `resultsScheduled` for the pending
the delayed switch to the results view. -/
structure AppState where
  view : ViewState
  files : List UploadedFile
  lastOptions : Option ExtractionOptions
  progress : ℚ
  progressMessage : String
  error : Option String
  result : Option ExtractionResult
  jobId : String
  simRunning : Bool
  resultsScheduled : Bool
deriving DecidableEq

/-! ## Progress Estimator (`startProgressSimulation` in `App.tsx`) -/

/-- One checkpoint of the synthetic progress schedule: target percentage,
phase message, elapsed-time threshold in milliseconds. -/
structure Checkpoint where
  target : ℚ
  message : String
  delay : ℕ
deriving DecidableEq

/-- The fixed checkpoint table of `startProgressSimulation`. -/
def steps : List Checkpoint :=
  [ ⟨10, "Uploading files...", 0⟩,
    ⟨30, "Extracting text from PDFs...", 1500⟩,
    ⟨55, "Analyzing invoice with AI...", 4000⟩,
    ⟨70, "Extracting packing list data...", 7000⟩,
    ⟨85, "Generating Excel sheets...", 12000⟩ ]

/-- Checkpoint selection of one tick: start at `steps[0]`, then take every
step whose delay has elapsed (ties and later thresholds win, as in the
source `for` loop). -/
def selectStep (elapsed : ℕ) : Checkpoint :=
  steps.foldl (fun acc st => if elapsed ≥ st.delay then st else acc)
    (steps.headD ⟨10, "Uploading files...", 0⟩)

/-- The `setProgress` updater of one tick: while below the current target,
advance by `max(0.3, (target - prev) * 0.06)` capped at the target,
otherwise stay put. -/
def progressStep (target prev : ℚ) : ℚ :=
  if prev < target then min target (prev + max (3/10) ((target - prev) * (6/100)))
  else prev

/-- One full estimator tick at a given elapsed time. -/
def tick (elapsed : ℕ) (prev : ℚ) : ℚ :=
  progressStep (selectStep elapsed).target prev

/-- The sequence of progress values emitted by successive ticks at the given
elapsed times, starting from the displayed value `p`. -/
def progressTrace : List ℕ → ℚ → List ℚ
  | [], _ => []
  | e :: es, p => tick e p :: progressTrace es (tick e p)

theorem le_progressStep (target prev : ℚ) : prev ≤ progressStep target prev := by
  unfold progressStep
  split_ifs with h
  · refine le_min (le_of_lt h) ?_
    have h2 : (0 : ℚ) ≤ max (3/10) ((target - prev) * (6/100)) :=
      le_trans (by norm_num) (le_max_left _ _)
    linarith
  · exact le_rfl

theorem progressStep_le_max (target prev : ℚ) :
    progressStep target prev ≤ max target prev := by
  unfold progressStep
  split_ifs with h
  · exact le_trans (min_le_left _ _) (le_max_left _ _)
  · exact le_max_right _ _

theorem selectStep_target_le (elapsed : ℕ) : (selectStep elapsed).target ≤ 85 := by
  unfold selectStep steps
  simp only [List.foldl_cons, List.foldl_nil, List.headD_cons]
  split_ifs <;> norm_num

theorem tick_ge (e : ℕ) (p : ℚ) : p ≤ tick e p :=
  le_progressStep _ _

theorem tick_le (e : ℕ) (p : ℚ) : tick e p ≤ max 85 p :=
  le_trans (progressStep_le_max _ _) (max_le_max (selectStep_target_le e) le_rfl)

theorem progressTrace_chain (es : List ℕ) (p : ℚ) :
    List.Chain' (· ≤ ·) (p :: progressTrace es p) := by
  induction es generalizing p with
  | nil => simp [progressTrace]
  | cons e es ih =>
    simp only [progressTrace]
    exact List.chain'_cons.mpr ⟨tick_ge e p, ih (tick e p)⟩

theorem progressTrace_le (B : ℚ) (hB : 85 ≤ B) :
    ∀ (es : List ℕ) (p : ℚ), p ≤ B → ∀ x ∈ progressTrace es p, x ≤ B := by
  intro es
  induction es with
  | nil => intro p _ x hx; simp [progressTrace] at hx
  | cons e es ih =>
    intro p hp x hx
    simp only [progressTrace, List.mem_cons] at hx
    have htick : tick e p ≤ B := le_trans (tick_le e p) (max_le hB hp)
    rcases hx with rfl | hx
    · exact htick
    · exact ih (tick e p) htick x hx

/-- Claim C1: for every run of the progress estimator, each tick never
decreases the displayed value and never pushes it past the highest
checkpoint target, so every trace started at 0 is non-decreasing and every
emitted value is at most 100. -/
theorem progress_estimator_monotone_bounded :
    (∀ (e : ℕ) (p : ℚ), p ≤ tick e p ∧ tick e p ≤ max p 85) ∧
    ∀ es : List ℕ,
      List.Chain' (· ≤ ·) (progressTrace es 0) ∧
        ∀ x ∈ progressTrace es 0, x ≤ 100 := by
  constructor
  · intro e p
    exact ⟨tick_ge e p, le_trans (tick_le e p) (le_of_eq (max_comm 85 p))⟩
  · intro es
    refine ⟨(progressTrace_chain es 0).tail, ?_⟩
    exact progressTrace_le 100 (by norm_num) es 0 (by norm_num)

/-- Witness for C1 at the concrete run with a single tick at elapsed time 0:
the first emitted value is `0.6` and the bound holds for it. -/
theorem progress_estimator_monotone_bounded_witness :
    List.Chain' (· ≤ ·) (progressTrace [0] 0) ∧ (3/5 : ℚ) ≤ 100 :=
  ⟨(progress_estimator_monotone_bounded.2 [0]).1,
   (progress_estimator_monotone_bounded.2 [0]).2 (3/5)
     (by norm_num [progressTrace, tick, selectStep, steps, progressStep])⟩

/-! ## Job Orchestrator (`App` in `App.tsx`) -/

/-- The synchronous first half of `handleProcess`, before the extraction
call resolves: store files/options, enter the processing view, reset
job-scoped state, and start the progress simulation. -/
def submitPhase (s : AppState) (selectedFiles : List UploadedFile)
    (options : Option ExtractionOptions) : AppState :=
  { s with
    files := selectedFiles,
    lastOptions := options,
    view := ViewState.processing,
    progress := 0,
    error := none,
    result := none,
    jobId := "",
    simRunning := true,
    resultsScheduled := false }

/-- The success tail of `handleProcess`: progress to 100, store job id and
result, schedule the delayed switch to the results view.  (The transient
warnings toast is a pure notification and is not modelled.) -/
def successState (s : AppState) (js : JobStatus) : AppState :=
  { s with
    progress := 100,
    progressMessage := "Done!",
    jobId := js.job_id,
    result := js.result,
    resultsScheduled := true }

/-- The reaction of `handleProcess` to the resolution of
`extractDocuments`: either the thrown transport error, or the terminal
`JobStatus`, classified by whether the carried result has status failed. -/
def responsePhase (s : AppState) (resp : Except String JobStatus) : AppState :=
  match resp with
  | Except.error msg =>
    { s with simRunning := false, error := some msg,
             progressMessage := "Processing failed." }
  | Except.ok js =>
    match js.result with
    | some r =>
      if r.status == "failed" then
        { s with
          simRunning := false,
          error := some (if (r.errors ++ r.warnings).length > 0
            then String.intercalate " | " (r.errors ++ r.warnings)
            else "Extraction failed. Please try again."),
          progressMessage := "Processing failed." }
      else successState { s with simRunning := false } js
    | none => successState { s with simRunning := false } js

/-- Firing of the pending delayed switch to the results view, when one was
scheduled. -/
def afterDelay (s : AppState) : AppState :=
  if s.resultsScheduled then { s with view := ViewState.results } else s

/-- One full orchestrator round: submission, terminal response, and the
delayed results transition when one was scheduled. -/
def afterResponse (s : AppState) (selectedFiles : List UploadedFile)
    (options : Option ExtractionOptions) (resp : Except String JobStatus) : AppState :=
  afterDelay (responsePhase (submitPhase s selectedFiles options) resp)

/-- Whether the terminal response is classified as failed by
`handleProcess` (a present result whose status is the string failed). -/
def isFailedResult : Option ExtractionResult → Bool
  | some r => r.status == "failed"
  | none => false

/-- Mirror of `ProcessingSection`: it renders the error alert and the Try
Again button exactly when the error message is truthy, i.e. present and
non-empty (`App` always supplies the `onRetry` handler). -/
def showsRetry : Option String → Bool
  | some m => decide (m ≠ "")
  | none => false

/-- The action taken by `handleRetry`: either a resubmission through
`handleProcess`, or a return to the upload view. -/
inductive RetryAction
  | resubmit (files : List UploadedFile) (options : Option ExtractionOptions)
  | returnToUpload
deriving DecidableEq

/-- Model of `handleRetry` in `App.tsx`: with stored files, re-invoke `handleProcess`
with the same files and options; otherwise return to the upload view and
clear error, progress and progress message. -/
def handleRetry (s : AppState) : RetryAction × AppState :=
  if s.files.length > 0 then
    (RetryAction.resubmit s.files s.lastOptions, s)
  else
    (RetryAction.returnToUpload,
      { s with
        view := ViewState.upload,
        error := none,
        progress := 0,
        progressMessage := "" })

/-- Model of `handleReset` in `App.tsx`: cancel the estimator and clear every piece
of job-scoped state. -/
def handleReset (s : AppState) : AppState :=
  { s with
    simRunning := false,
    view := ViewState.upload,
    files := [],
    progress := 0,
    progressMessage := "",
    error := none,
    result := none,
    jobId := "",
    lastOptions := none,
    resultsScheduled := false }

/-! ## Concrete sample data for witnesses and counterexamples -/

/-- An unextracted field: null value, zero confidence. -/
def emptyCV : ConfidenceValue := ⟨JSValue.null, 0⟩

def emptyAddress : Address :=
  ⟨emptyCV, emptyCV, emptyCV, emptyCV, emptyCV, emptyCV, emptyCV, emptyCV⟩

def emptyInvoice : InvoiceData :=
  ⟨emptyCV, emptyCV, emptyCV, emptyCV, emptyAddress, emptyAddress, emptyAddress,
   emptyAddress, []⟩

def emptyPackingList : PackingListData :=
  ⟨emptyCV, emptyCV, emptyCV, [], []⟩

/-- A minimal successful extraction result. -/
def baseResult : ExtractionResult :=
  ⟨"job-0", "success", 1, emptyInvoice, emptyPackingList, [], []⟩

/-- A failed extraction result carrying one error and no warnings
(the scenario of claim C3). -/
def failedResult : ExtractionResult :=
  ⟨"job-1", "failed", 0, emptyInvoice, emptyPackingList, [], ["page unreadable"]⟩

def failedJobStatus : JobStatus :=
  ⟨"job-1", "completed", 100, "", some failedResult, none, none⟩

def successJobStatus : JobStatus :=
  ⟨"job-2", "completed", 100, "", some baseResult, none, none⟩

/-- A terminal response whose `result` is null (the edge case of claim C10). -/
def nullResultJobStatus : JobStatus :=
  ⟨"job-9", "completed", 100, "done", none, none, none⟩

def sampleFile : UploadedFile := ⟨"invoice.pdf"⟩

def sampleOptions : ExtractionOptions := ⟨Currency.usd, some (835/10), true⟩

/-- The initial state of `App`. -/
def initState : AppState :=
  { view := ViewState.upload, files := [], lastOptions := none, progress := 0,
    progressMessage := "", error := none, result := none, jobId := "",
    simRunning := false, resultsScheduled := false }

/-! ## Claims about the orchestrator -/

/-- Claim C2: the estimator never emits 100 on its own — every checkpoint
target is below 100 and every value of a trace started at 0 stays below
100 — and the response handler of the orchestrator sets progress to 100 exactly
when the terminal response arrived and its result is not a failed result. -/
theorem progress_hundred_only_from_success :
    (∀ e : ℕ, (selectStep e).target < 100) ∧
    (∀ es : List ℕ, ∀ x ∈ progressTrace es 0, x < 100) ∧
    ∀ (s : AppState) (resp : Except String JobStatus),
      s.progress < 100 →
      ((responsePhase s resp).progress = 100 ↔
        ∃ js, resp = Except.ok js ∧ isFailedResult js.result = false) := by
  refine ⟨?_, ?_, ?_⟩
  · intro e
    have h := selectStep_target_le e
    linarith
  · intro es x hx
    have h := progressTrace_le 85 le_rfl es 0 (by norm_num) x hx
    linarith
  · intro s resp hs
    cases resp with
    | error msg =>
      constructor
      · intro h
        have h1 : s.progress = 100 := h
        exact absurd h1 (ne_of_lt hs)
      · rintro ⟨js, hjs, -⟩
        exact Except.noConfusion hjs
    | ok js =>
      cases hr : js.result with
      | none =>
        constructor
        · intro _
          exact ⟨js, rfl, by simp [isFailedResult, hr]⟩
        · intro _
          simp [responsePhase, hr, successState]
      | some r =>
        by_cases hf : r.status = "failed"
        · constructor
          · intro h
            have h1 : (responsePhase s (Except.ok js)).progress = s.progress := by
              simp [responsePhase, hr, hf]
            rw [h1] at h
            exact absurd h (ne_of_lt hs)
          · rintro ⟨js2, hjs, hfl⟩
            have hj : js2 = js := by
              injection hjs with h2
              exact h2.symm
            rw [hj, hr] at hfl
            simp [isFailedResult, hf] at hfl
        · constructor
          · intro _
            refine ⟨js, rfl, ?_⟩
            simp [isFailedResult, hr, hf]
          · intro _
            simp [responsePhase, hr, hf, successState]

/-- Witness for C2: at a concrete processing state with progress below 100,
a terminal response with a non-failed result yields progress 100, and the
single emitted estimator value `0.6` is below 100. -/
theorem progress_hundred_only_from_success_witness :
    (responsePhase (submitPhase initState [sampleFile] none)
        (Except.ok successJobStatus)).progress = 100 ∧
    (3/5 : ℚ) < 100 := by
  constructor
  · exact (progress_hundred_only_from_success.2.2
      (submitPhase initState [sampleFile] none) (Except.ok successJobStatus)
      (by norm_num [submitPhase, initState])).mpr
      ⟨successJobStatus, rfl, by decide⟩
  · exact progress_hundred_only_from_success.2.1 [0] (3/5)
      (by norm_num [progressTrace, tick, selectStep, steps, progressStep])

/-- A failed extraction result whose single error message is the empty
string, so the pipe-joined display message is empty. -/
def failedEmptyMsgResult : ExtractionResult :=
  ⟨"job-3", "failed", 0, emptyInvoice, emptyPackingList, [], [""]⟩

def failedEmptyMsgJobStatus : JobStatus :=
  ⟨"job-3", "completed", 100, "", some failedEmptyMsgResult, none, none⟩

/-- Claim C3 counterexample: for a failed result with errors equal to a
single empty string and no warnings, the joined message is the empty
string; the error is set to that falsy value, so the program renders no
error alert and no Try Again button — the orchestrator is not in an error
sub-state with retry enabled, refuting the claim as stated. -/
theorem failed_empty_error_disables_retry :
    (afterResponse initState [sampleFile] none
       (Except.ok failedEmptyMsgJobStatus)).error = some "" ∧
    showsRetry (afterResponse initState [sampleFile] none
       (Except.ok failedEmptyMsgJobStatus)).error = false := by
  constructor <;> rfl

/-- Claim C3 (amended): on a terminal response whose result has status
failed, the orchestrator stays in the processing view, stops the estimator,
and sets the error to the pipe-joined concatenation of errors then warnings
(or the generic fallback when both are empty); the retry affordance renders
exactly when that message is non-empty — which holds in particular in the
scenario of the claim, errors equal to the single string page unreadable
and no warnings. -/
theorem failed_result_enters_error_substate
    (s : AppState) (selectedFiles : List UploadedFile)
    (options : Option ExtractionOptions) (js : JobStatus) (r : ExtractionResult)
    (hres : js.result = some r) (hfail : r.status = "failed") :
    (afterResponse s selectedFiles options (Except.ok js)).view = ViewState.processing ∧
    (afterResponse s selectedFiles options (Except.ok js)).simRunning = false ∧
    (afterResponse s selectedFiles options (Except.ok js)).error =
      some (if (r.errors ++ r.warnings).length > 0
        then String.intercalate " | " (r.errors ++ r.warnings)
        else "Extraction failed. Please try again.") ∧
    (showsRetry (afterResponse s selectedFiles options (Except.ok js)).error = true ↔
      (if (r.errors ++ r.warnings).length > 0
        then String.intercalate " | " (r.errors ++ r.warnings)
        else "Extraction failed. Please try again.") ≠ "") := by
  refine ⟨?_, ?_, ?_, ?_⟩ <;>
    simp [afterResponse, afterDelay, responsePhase, submitPhase, successState,
      showsRetry, hres, hfail]

/-- Witness for C3, the scenario of the claim: errors `["page unreadable"]`
and no warnings yield the error message exactly `"page unreadable"`, which
is non-empty, so the orchestrator remains in the processing view with the
retry affordance shown. -/
theorem failed_result_enters_error_substate_witness :
    (afterResponse initState [sampleFile] (some sampleOptions)
       (Except.ok failedJobStatus)).view = ViewState.processing ∧
    (afterResponse initState [sampleFile] (some sampleOptions)
       (Except.ok failedJobStatus)).error = some "page unreadable" ∧
    showsRetry (afterResponse initState [sampleFile] (some sampleOptions)
       (Except.ok failedJobStatus)).error = true := by
  have h := failed_result_enters_error_substate initState [sampleFile]
    (some sampleOptions) failedJobStatus failedResult rfl rfl
  refine ⟨h.1, ?_, ?_⟩
  · have h2 := h.2.2.1
    simpa [failedResult, String.intercalate] using h2
  · exact h.2.2.2.mpr (by decide)

/-- Claim C10: a terminal response whose `result` is null cannot match the
failed-status check, so the orchestrator takes the success path: it stops
the estimator, sets progress to 100, stores the job id and the null result,
transitions to the results view after the display delay, and produces no
error message and no retry affordance. -/
theorem null_result_takes_success_path
    (s : AppState) (selectedFiles : List UploadedFile)
    (options : Option ExtractionOptions) (js : JobStatus)
    (hres : js.result = none) :
    (afterResponse s selectedFiles options (Except.ok js)).view = ViewState.results ∧
    (afterResponse s selectedFiles options (Except.ok js)).simRunning = false ∧
    (afterResponse s selectedFiles options (Except.ok js)).progress = 100 ∧
    (afterResponse s selectedFiles options (Except.ok js)).jobId = js.job_id ∧
    (afterResponse s selectedFiles options (Except.ok js)).result = none ∧
    (afterResponse s selectedFiles options (Except.ok js)).error = none ∧
    showsRetry (afterResponse s selectedFiles options (Except.ok js)).error = false := by
  refine ⟨?_, ?_, ?_, ?_, ?_, ?_, ?_⟩ <;>
    simp [afterResponse, afterDelay, responsePhase, submitPhase, successState,
      showsRetry, hres]

/-- Witness for C10 at the concrete null-result terminal response. -/
theorem null_result_takes_success_path_witness :
    (afterResponse initState [sampleFile] none
       (Except.ok nullResultJobStatus)).view = ViewState.results ∧
    (afterResponse initState [sampleFile] none
       (Except.ok nullResultJobStatus)).progress = 100 ∧
    (afterResponse initState [sampleFile] none
       (Except.ok nullResultJobStatus)).jobId = "job-9" ∧
    (afterResponse initState [sampleFile] none
       (Except.ok nullResultJobStatus)).error = none := by
  have h := null_result_takes_success_path initState [sampleFile] none
    nullResultJobStatus rfl
  exact ⟨h.1, h.2.2.1, h.2.2.2.1, h.2.2.2.2.2.1⟩

/-- A state with no stored files but a stale job id and result left over
from an earlier job. -/
def staleState : AppState :=
  { initState with
    jobId := "stale-job",
    result := some baseResult,
    error := some "boom",
    progress := 42,
    progressMessage := "x" }

/-- A processing error state that still holds the submitted files and
options, ready for retry. -/
def retryReadyState : AppState :=
  { initState with
    view := ViewState.processing,
    files := [sampleFile],
    lastOptions := some sampleOptions,
    error := some "network down" }

/-- Claim C8 counterexample: `handleRetry` on a state with no stored files
does return to the upload view, but it does not clear the stale job-scoped
data — the old job id and result survive — refuting the claim that retry
clears any stale job-scoped data. -/
theorem retry_keeps_stale_job_data :
    (handleRetry staleState).2.view = ViewState.upload ∧
    (handleRetry staleState).2.jobId = "stale-job" ∧
    (handleRetry staleState).2.result = some baseResult ∧
    ¬ ((handleRetry staleState).2.jobId = "" ∧
       (handleRetry staleState).2.result = none) := by
  refine ⟨rfl, rfl, rfl, ?_⟩
  rintro ⟨h1, -⟩
  exact absurd h1 (by decide)

/-- Claim C8 (amended): with stored files, `handleRetry` re-invokes the
submission with exactly the same files and options; with no stored files it
returns to the upload view and clears the error, progress and progress
message, while leaving the stored job id, result, files and options
untouched. -/
theorem retry_behavior (s : AppState) :
    (s.files.length > 0 →
      handleRetry s = (RetryAction.resubmit s.files s.lastOptions, s)) ∧
    (s.files = [] →
      (handleRetry s).1 = RetryAction.returnToUpload ∧
      (handleRetry s).2.view = ViewState.upload ∧
      (handleRetry s).2.error = none ∧
      (handleRetry s).2.progress = 0 ∧
      (handleRetry s).2.progressMessage = "" ∧
      (handleRetry s).2.jobId = s.jobId ∧
      (handleRetry s).2.result = s.result ∧
      (handleRetry s).2.files = s.files ∧
      (handleRetry s).2.lastOptions = s.lastOptions) := by
  constructor
  · intro h
    simp [handleRetry, h]
  · intro h
    have h0 : ¬ s.files.length > 0 := by simp [h]
    refine ⟨?_, ?_, ?_, ?_, ?_, ?_, ?_, ?_, ?_⟩ <;> simp [handleRetry, h0]

/-- Witness for the amended C8: a concrete error state with stored files is
resubmitted with the very same files and options, and retry from the
initial empty state lands back in the upload view. -/
theorem retry_behavior_witness :
    handleRetry retryReadyState =
      (RetryAction.resubmit [sampleFile] (some sampleOptions), retryReadyState) ∧
    (handleRetry initState).2.view = ViewState.upload := by
  constructor
  · exact (retry_behavior retryReadyState).1 (by decide)
  · exact ((retry_behavior initState).2 rfl).2.1

/-! ## Result Schema derivation rules (`ResultsSection.tsx`) -/

/-- Model of `getReceiverAddress`: prefer the ship-to address when any of its name,
address, city or country field holds a truthy value, otherwise fall back to
the consignee. -/
def getReceiverAddress (result : ExtractionResult) : Address :=
  let shipTo := result.invoice.ship_to
  if truthy shipTo.name.value || truthy shipTo.address.value ||
      truthy shipTo.city.value || truthy shipTo.country.value
  then shipTo
  else result.invoice.consignee

/-- Model of `hasMultiDest`: more than one destination in the packing list. -/
def hasMultiDest (result : ExtractionResult) : Bool :=
  decide (result.packing_list.destinations.length > 1)

/-- The two rendering modes of the destinations / receiver section and of
the boxes table destination column. -/
inductive RenderMode
  | singleAddress
  | perDestination
deriving DecidableEq

/-- Mirror of `ResultsSection`: it renders the per-destination grouping exactly when
`hasMultiDest` holds, and the single receiver card otherwise. -/
def renderMode (result : ExtractionResult) : RenderMode :=
  if hasMultiDest result then RenderMode.perDestination
  else RenderMode.singleAddress

/-- The presentation tier of `getConfidenceColor`. -/
inductive ConfColor
  | success
  | warning
  | error
deriving DecidableEq

/-- Model of `getConfidenceColor`: at least 0.9 is success, at least 0.7 warning,
anything lower error. -/
def getConfidenceColor (score : ℚ) : ConfColor :=
  if score ≥ 9/10 then ConfColor.success
  else if score ≥ 7/10 then ConfColor.warning
  else ConfColor.error

/-- The seven constituent confidences of a line item row (`confs` in the
line-items table body; `hs_code_origin` is the representative HS code). -/
def lineItemConfs (item : LineItem) : List ℚ :=
  [item.description.confidence, item.hs_code_origin.confidence,
   item.quantity.confidence, item.unit_price_usd.confidence,
   item.total_price_usd.confidence, item.unit_weight_kg.confidence,
   item.igst_percent.confidence]

/-- The running-sum fold divided by the list length, for a line item row. -/
def lineItemAvgConf (item : LineItem) : ℚ :=
  (lineItemConfs item).foldl (· + ·) 0 / (lineItemConfs item).length

/-- The five constituent confidences of a box row (`confs` in the boxes
table body). -/
def boxConfs (box : Box) : List ℚ :=
  [box.box_number.confidence, box.length_cm.confidence,
   box.width_cm.confidence, box.height_cm.confidence,
   box.gross_weight_kg.confidence]

/-- The running-sum fold divided by the list length, for a box row. -/
def boxAvgConf (box : Box) : ℚ :=
  (boxConfs box).foldl (· + ·) 0 / (boxConfs box).length

/-! ## Numeric formatting (`fmtCurrency`, `fmtWeight`, `v`) -/

/-- Value of a digit-character list read in base 10. -/
def digitsVal (ds : List Char) : ℕ :=
  ds.foldl (fun n c => 10 * n + (c.toNat - 48)) 0

/-- A JavaScript number as produced by `parseFloat`: a finite value or one
of the two infinities.  (NaN is represented by `none` at the `Option`
level.) -/
inductive JSNum
  | finite (q : ℚ)
  | posInf
  | negInf
deriving DecidableEq

/-- JavaScript `parseFloat`: skip leading whitespace, take an optional
sign, then either the literal word Infinity or an integer part and an
optional fraction part; `none` models NaN.  (Exponent suffixes are not
modelled; whether a string parses, and to which value, is unaffected for
every input any claim touches.) -/
def parseFloatJS (s : String) : Option JSNum :=
  let cs := s.data.dropWhile fun c => c == ' ' || c == '\t' || c == '\n' || c == '\r'
  let signedBody : Bool × List Char :=
    match cs with
    | '-' :: rest => (true, rest)
    | '+' :: rest => (false, rest)
    | _ => (false, cs)
  if signedBody.2.take 8 = "Infinity".data then
    some (if signedBody.1 then JSNum.negInf else JSNum.posInf)
  else
    let intPart := signedBody.2.takeWhile Char.isDigit
    let afterInt := signedBody.2.dropWhile Char.isDigit
    let fracPart :=
      match afterInt with
      | '.' :: rest => rest.takeWhile Char.isDigit
      | _ => []
    if intPart.isEmpty && fracPart.isEmpty then none
    else some (JSNum.finite ((if signedBody.1 then (-1 : ℚ) else 1) *
      ((digitsVal intPart : ℚ) + (digitsVal fracPart : ℚ) / (10 : ℚ) ^ fracPart.length)))

/-- The finite value of a parse result, when there is one; NaN and the two
infinities are both stored as an absent rate here.  (Claim C7 inspects
only whether a rate is cleared, never its value.) -/
def parsedFiniteRate : Option JSNum → Option ℚ
  | some (JSNum.finite q) => some q
  | _ => none

/-- Digit chunks of three, least-significant first, for en-US thousands
grouping. -/
def chunks3 : List Char → List (List Char)
  | [] => []
  | [a] => [[a]]
  | [a, b] => [[a, b]]
  | a :: b :: c :: rest => [a, b, c] :: chunks3 rest

/-- The integer part of the en-US locale rendering: base-10 digits with a
comma every three digits. -/
def groupDigits (n : ℕ) : String :=
  String.intercalate ","
    (((chunks3 (Nat.toDigits 10 n).reverse).reverse).map fun chunk =>
      String.mk chunk.reverse)

/-- Exactly two digit characters, zero padded, for `k < 100`. -/
def pad2 (k : ℕ) : String :=
  String.mk [Nat.digitChar (k / 10 % 10), Nat.digitChar (k % 10)]

/-- Exactly one digit character for `k < 10`. -/
def pad1 (k : ℕ) : String :=
  String.mk [Nat.digitChar (k % 10)]

/-- Round-half-up to an integer, as the fraction-digit formatting of
`toLocaleString` does. -/
def jsRound (q : ℚ) : ℤ := (q + 1/2).floor

/-- The en-US locale rendering with minimum and maximum fraction digits both
set to 2: two fraction digits after rounding, grouped integer part. -/
def localeString2 (q : ℚ) : String :=
  (if jsRound (q * 100) < 0 then "-" else "")
    ++ groupDigits ((jsRound (q * 100)).natAbs / 100)
    ++ "." ++ pad2 ((jsRound (q * 100)).natAbs % 100)

/-- The en-US locale rendering with minimum and maximum fraction digits both
set to 1: one fraction digit after rounding, grouped integer part. -/
def localeString1 (q : ℚ) : String :=
  (if jsRound (q * 10) < 0 then "-" else "")
    ++ groupDigits ((jsRound (q * 10)).natAbs / 10)
    ++ "." ++ pad1 ((jsRound (q * 10)).natAbs % 10)

/-- The two-decimal en-US locale rendering extended to parse results: a
finite value renders as usual, the infinities as the infinity symbol
(optionally signed), as `toLocaleString` renders them. -/
def localeString2N : JSNum → String
  | JSNum.finite q => localeString2 q
  | JSNum.posInf => "∞"
  | JSNum.negInf => "-∞"

/-- The one-decimal en-US locale rendering extended to parse results. -/
def localeString1N : JSNum → String
  | JSNum.finite q => localeString1 q
  | JSNum.posInf => "∞"
  | JSNum.negInf => "-∞"

/-- Model of `fmtCurrency`: placeholder for null / empty / NaN input,
otherwise a dollar sign followed by the two-decimal rendering (the
isNaN guard lets the infinities through). -/
def fmtCurrency : JSValue → String
  | JSValue.null => "-"
  | JSValue.str s =>
    if s == "" then "-"
    else
      match parseFloatJS s with
      | none => "-"
      | some n => "$" ++ localeString2N n
  | JSValue.num q => "$" ++ localeString2 q

/-- Model of `fmtWeight`: placeholder for null / empty / NaN input,
otherwise the one-decimal rendering followed by the kg unit (the isNaN
guard lets the infinities through). -/
def fmtWeight : JSValue → String
  | JSValue.null => "-"
  | JSValue.str s =>
    if s == "" then "-"
    else
      match parseFloatJS s with
      | none => "-"
      | some n => localeString1N n ++ " kg"
  | JSValue.num q => localeString1 q ++ " kg"

/-- JavaScript `String(x)` for a non-null scalar.  (For numbers the exact
digit sequence of the JavaScript rendering is irrelevant to every claim;
any decimal rendering of the rational would do.) -/
def jsString : JSValue → String
  | JSValue.null => "null"
  | JSValue.str s => s
  | JSValue.num q => if q.den = 1 then toString q.num else toString q

/-- The generic accessor `v`: placeholder for null or empty-string values,
otherwise `String(cv.value)`. -/
def v (cv : ConfidenceValue) : String :=
  match cv.value with
  | JSValue.null => "-"
  | JSValue.str s => if s == "" then "-" else s
  | JSValue.num q => jsString (JSValue.num q)

/-! ## Extraction options updates (`UploadSection` in `ProcessingSection.tsx`) -/

/-- The `onChange` updater of the Output Currency select: switch currency
and clear the exchange rate exactly when the new currency is auto. -/
def setCurrency (prev : ExtractionOptions) (val : Currency) : ExtractionOptions :=
  { prev with
    output_currency := val,
    exchange_rate := if val = Currency.auto then none else prev.exchange_rate }

/-- The `onChange` updater of the Exchange Rate field: parse a non-empty
input, clear on empty input.  (A non-parsing input stores NaN in the
source; both NaN and null are modelled as `none`, which no claim
distinguishes.) -/
def setExchangeRate (prev : ExtractionOptions) (input : String) : ExtractionOptions :=
  { prev with
    exchange_rate :=
      if input == "" then none else parsedFiniteRate (parseFloatJS input) }

/-- The `onChange` updater of the Sync HS Codes switch. -/
def setSyncHsCodes (prev : ExtractionOptions) (checked : Bool) : ExtractionOptions :=
  { prev with sync_hs_codes := checked }

/-- The invariant of `ExtractionOptions`: the exchange rate is cleared
whenever the output currency is auto. -/
def optionsInvariant (o : ExtractionOptions) : Prop :=
  o.output_currency = Currency.auto → o.exchange_rate = none

/-- Model of `showExchangeRate`: the Exchange Rate field is rendered only when the
currency is not auto. -/
def showExchangeRate (o : ExtractionOptions) : Bool :=
  decide (o.output_currency ≠ Currency.auto)

/-! ## Claims about the result schema -/

/-- Claim C4: receiver resolution returns the consignee when all four key
ship-to fields (name, address, city, country) are empty, and returns the
ship-to address as soon as any one of the four holds a non-empty (truthy)
value. -/
theorem receiver_resolution (result : ExtractionResult) :
    (truthy result.invoice.ship_to.name.value = false →
     truthy result.invoice.ship_to.address.value = false →
     truthy result.invoice.ship_to.city.value = false →
     truthy result.invoice.ship_to.country.value = false →
     getReceiverAddress result = result.invoice.consignee) ∧
    ((truthy result.invoice.ship_to.name.value = true ∨
      truthy result.invoice.ship_to.address.value = true ∨
      truthy result.invoice.ship_to.city.value = true ∨
      truthy result.invoice.ship_to.country.value = true) →
     getReceiverAddress result = result.invoice.ship_to) := by
  constructor
  · intro h1 h2 h3 h4
    simp [getReceiverAddress, h1, h2, h3, h4]
  · intro h
    rcases h with h | h | h | h <;> simp [getReceiverAddress, h]

def consigneeSample : Address :=
  { emptyAddress with name := ⟨JSValue.str "ACME GmbH", 9/10⟩ }

def shipToSample : Address :=
  { emptyAddress with city := ⟨JSValue.str "Berlin", 8/10⟩ }

/-- All four key ship-to fields empty, non-empty consignee. -/
def resultConsigneeOnly : ExtractionResult :=
  { baseResult with invoice := { emptyInvoice with consignee := consigneeSample } }

/-- Ship-to with one key field (city) non-empty. -/
def resultWithShipTo : ExtractionResult :=
  { baseResult with
    invoice := { emptyInvoice with
      consignee := consigneeSample, ship_to := shipToSample } }

/-- Witness for C4 at a concrete all-empty ship-to (falls back to the
consignee) and a concrete ship-to with one non-empty key field (wins). -/
theorem receiver_resolution_witness :
    getReceiverAddress resultConsigneeOnly = consigneeSample ∧
    getReceiverAddress resultWithShipTo = shipToSample := by
  constructor
  · exact (receiver_resolution resultConsigneeOnly).1 rfl rfl rfl rfl
  · exact (receiver_resolution resultWithShipTo).2 (Or.inr (Or.inr (Or.inl rfl)))

/-- Claim C5: the aggregate confidence of a line item row is the unweighted
mean of its seven designated field confidences, the aggregate of a box row
the mean of its five; when every constituent lies in [0,1] so does the
aggregate; and the display tier is success iff the score is at least 0.9,
warning iff it is in [0.7, 0.9), error otherwise. -/
theorem aggregate_confidence_mean_bounds :
    (∀ item : LineItem,
      lineItemAvgConf item =
        (item.description.confidence + item.hs_code_origin.confidence +
         item.quantity.confidence + item.unit_price_usd.confidence +
         item.total_price_usd.confidence + item.unit_weight_kg.confidence +
         item.igst_percent.confidence) / 7 ∧
      ((∀ c ∈ lineItemConfs item, 0 ≤ c ∧ c ≤ 1) →
        0 ≤ lineItemAvgConf item ∧ lineItemAvgConf item ≤ 1)) ∧
    (∀ box : Box,
      boxAvgConf box =
        (box.box_number.confidence + box.length_cm.confidence +
         box.width_cm.confidence + box.height_cm.confidence +
         box.gross_weight_kg.confidence) / 5 ∧
      ((∀ c ∈ boxConfs box, 0 ≤ c ∧ c ≤ 1) →
        0 ≤ boxAvgConf box ∧ boxAvgConf box ≤ 1)) ∧
    (∀ score : ℚ,
      (getConfidenceColor score = ConfColor.success ↔ 9/10 ≤ score) ∧
      (getConfidenceColor score = ConfColor.warning ↔
        7/10 ≤ score ∧ score < 9/10) ∧
      (getConfidenceColor score = ConfColor.error ↔ score < 7/10)) := by
  refine ⟨?_, ?_, ?_⟩
  · intro item
    have hmean : lineItemAvgConf item =
        (item.description.confidence + item.hs_code_origin.confidence +
         item.quantity.confidence + item.unit_price_usd.confidence +
         item.total_price_usd.confidence + item.unit_weight_kg.confidence +
         item.igst_percent.confidence) / 7 := by
      simp only [lineItemAvgConf, lineItemConfs, List.foldl_cons, List.foldl_nil,
        List.length_cons, List.length_nil]
      norm_num
    refine ⟨hmean, ?_⟩
    intro h
    obtain ⟨ha0, ha1⟩ := h item.description.confidence (by simp [lineItemConfs])
    obtain ⟨hb0, hb1⟩ := h item.hs_code_origin.confidence (by simp [lineItemConfs])
    obtain ⟨hc0, hc1⟩ := h item.quantity.confidence (by simp [lineItemConfs])
    obtain ⟨hd0, hd1⟩ := h item.unit_price_usd.confidence (by simp [lineItemConfs])
    obtain ⟨he0, he1⟩ := h item.total_price_usd.confidence (by simp [lineItemConfs])
    obtain ⟨hf0, hf1⟩ := h item.unit_weight_kg.confidence (by simp [lineItemConfs])
    obtain ⟨hg0, hg1⟩ := h item.igst_percent.confidence (by simp [lineItemConfs])
    rw [hmean]
    constructor
    · apply div_nonneg _ (by norm_num)
      linarith
    · rw [div_le_one (by norm_num)]
      linarith
  · intro box
    have hmean : boxAvgConf box =
        (box.box_number.confidence + box.length_cm.confidence +
         box.width_cm.confidence + box.height_cm.confidence +
         box.gross_weight_kg.confidence) / 5 := by
      simp only [boxAvgConf, boxConfs, List.foldl_cons, List.foldl_nil,
        List.length_cons, List.length_nil]
      norm_num
    refine ⟨hmean, ?_⟩
    intro h
    obtain ⟨ha0, ha1⟩ := h box.box_number.confidence (by simp [boxConfs])
    obtain ⟨hb0, hb1⟩ := h box.length_cm.confidence (by simp [boxConfs])
    obtain ⟨hc0, hc1⟩ := h box.width_cm.confidence (by simp [boxConfs])
    obtain ⟨hd0, hd1⟩ := h box.height_cm.confidence (by simp [boxConfs])
    obtain ⟨he0, he1⟩ := h box.gross_weight_kg.confidence (by simp [boxConfs])
    rw [hmean]
    constructor
    · apply div_nonneg _ (by norm_num)
      linarith
    · rw [div_le_one (by norm_num)]
      linarith
  · intro score
    unfold getConfidenceColor
    split_ifs with h1 h2
    · refine ⟨by simp [h1], ?_, ?_⟩
      · constructor
        · intro hcol
          exact absurd hcol (by simp)
        · rintro ⟨-, hlt⟩
          exact absurd h1 (not_le.mpr hlt)
      · constructor
        · intro hcol
          exact absurd hcol (by simp)
        · intro hlt
          exact absurd h1 (not_le.mpr (lt_trans hlt (by norm_num)))
    · refine ⟨?_, by simp [h2, not_le.mp h1], ?_⟩
      · constructor
        · intro hcol
          exact absurd hcol (by simp)
        · intro hge
          exact absurd hge h1
      · constructor
        · intro hcol
          exact absurd hcol (by simp)
        · intro hlt
          exact absurd h2 (not_le.mpr hlt)
    · refine ⟨?_, ?_, by simp [not_le.mp h2]⟩
      · constructor
        · intro hcol
          exact absurd hcol (by simp)
        · intro hge
          exact absurd h1 (not_not_intro (le_trans (by norm_num) hge))
      · constructor
        · intro hcol
          exact absurd hcol (by simp)
        · rintro ⟨hge, -⟩
          exact absurd hge h2

/-- A line item whose seven designated confidences are all 1/2. -/
def halfConfItem : LineItem :=
  ⟨⟨JSValue.null, 1/2⟩, ⟨JSValue.null, 1/2⟩, ⟨JSValue.null, 1/2⟩,
   ⟨JSValue.null, 1/2⟩, ⟨JSValue.null, 1/2⟩, ⟨JSValue.null, 1/2⟩,
   ⟨JSValue.null, 1/2⟩, ⟨JSValue.null, 1/2⟩⟩

/-- A box whose five designated confidences are all 1. -/
def fullConfBox : Box :=
  ⟨⟨JSValue.null, 1⟩, ⟨JSValue.null, 1⟩, ⟨JSValue.null, 1⟩, ⟨JSValue.null, 1⟩,
   ⟨JSValue.null, 1⟩, ⟨JSValue.null, 1⟩, [], ⟨JSValue.null, 1⟩, none⟩

/-- Witness for C5 at concrete rows with in-range confidences and a
concrete score in the success tier. -/
theorem aggregate_confidence_mean_bounds_witness :
    (0 ≤ lineItemAvgConf halfConfItem ∧ lineItemAvgConf halfConfItem ≤ 1) ∧
    (0 ≤ boxAvgConf fullConfBox ∧ boxAvgConf fullConfBox ≤ 1) ∧
    getConfidenceColor (19/20) = ConfColor.success := by
  refine ⟨?_, ?_, ?_⟩
  · exact (aggregate_confidence_mean_bounds.1 halfConfItem).2
      (by intro c hc; simp [lineItemConfs, halfConfItem] at hc; rw [hc]; norm_num)
  · exact (aggregate_confidence_mean_bounds.2.1 fullConfBox).2
      (by intro c hc; simp [boxConfs, fullConfBox] at hc; rw [hc]; norm_num)
  · exact ((aggregate_confidence_mean_bounds.2.2 (19/20)).1).mpr (by norm_num)

/-- Claim C6: multi-destination mode activates exactly when the packing
list has strictly more than one destination; zero or one destination keeps
the single-address receiver rendering, two or more switch to
per-destination grouping. -/
theorem multi_destination_iff (result : ExtractionResult) :
    (hasMultiDest result = true ↔
      result.packing_list.destinations.length > 1) ∧
    (result.packing_list.destinations.length ≤ 1 →
      renderMode result = RenderMode.singleAddress) ∧
    (2 ≤ result.packing_list.destinations.length →
      renderMode result = RenderMode.perDestination) := by
  refine ⟨by simp [hasMultiDest], ?_, ?_⟩
  · intro h
    have h2 : ¬ result.packing_list.destinations.length > 1 := by omega
    simp [renderMode, hasMultiDest, h2]
  · intro h
    have h2 : result.packing_list.destinations.length > 1 := by omega
    simp [renderMode, hasMultiDest, h2]

/-- A result with two destinations. -/
def resultTwoDest : ExtractionResult :=
  { baseResult with
    packing_list := { emptyPackingList with
      destinations :=
        [⟨"D1", emptyCV, emptyAddress⟩, ⟨"D2", emptyCV, emptyAddress⟩] } }

/-- Witness for C6: zero destinations render the single receiver card, two
destinations switch to per-destination grouping. -/
theorem multi_destination_iff_witness :
    renderMode baseResult = RenderMode.singleAddress ∧
    renderMode resultTwoDest = RenderMode.perDestination := by
  constructor
  · exact (multi_destination_iff baseResult).2.1 (by decide)
  · exact (multi_destination_iff resultTwoDest).2.2 (by decide)

/-- Claim C7: switching the output currency to auto clears the exchange
rate, switching to a non-auto currency preserves it; consequently the
currency updater preserves the options invariant unconditionally, the
HS-sync updater preserves it, and the exchange-rate updater (reachable only
while its field is rendered, i.e. while the currency is not auto) preserves
it as well. -/
theorem currency_auto_clears_rate (prev : ExtractionOptions) :
    (setCurrency prev Currency.auto).exchange_rate = none ∧
    (∀ val, val ≠ Currency.auto →
      (setCurrency prev val).exchange_rate = prev.exchange_rate) ∧
    (∀ val, optionsInvariant (setCurrency prev val)) ∧
    (∀ checked, optionsInvariant prev →
      optionsInvariant (setSyncHsCodes prev checked)) ∧
    (∀ input, showExchangeRate prev = true →
      optionsInvariant (setExchangeRate prev input)) := by
  refine ⟨by simp [setCurrency], ?_, ?_, ?_, ?_⟩
  · intro val hval
    simp [setCurrency, hval]
  · intro val
    intro hauto
    have hv : val = Currency.auto := hauto
    simp [setCurrency, hv]
  · intro checked hinv hauto
    exact hinv hauto
  · intro input hshow hauto
    simp [showExchangeRate] at hshow
    exact absurd hauto hshow

/-- Witness for C7 at concrete options: switching USD → auto clears the
stored rate 83.5, switching USD → INR preserves it, and the rate updater
applied while the field is visible keeps the invariant. -/
theorem currency_auto_clears_rate_witness :
    (setCurrency sampleOptions Currency.auto).exchange_rate = none ∧
    (setCurrency sampleOptions Currency.inr).exchange_rate = some (835/10) ∧
    optionsInvariant (setExchangeRate sampleOptions "42") := by
  refine ⟨(currency_auto_clears_rate sampleOptions).1, ?_, ?_⟩
  · exact (currency_auto_clears_rate sampleOptions).2.1 Currency.inr (by decide)
  · exact (currency_auto_clears_rate sampleOptions).2.2.2.2 "42" (by decide)

/-! ## Claims about numeric formatting -/

theorem digitChar_isDigit (n : ℕ) (h : n < 10) : (Nat.digitChar n).isDigit = true := by
  interval_cases n <;> rfl

theorem localeString2_data (q : ℚ) :
    ∃ pre a b, (localeString2 q).data = pre ++ ['.', a, b] ∧
      a.isDigit = true ∧ b.isDigit = true := by
  refine ⟨((if jsRound (q * 100) < 0 then "-" else "")
      ++ groupDigits ((jsRound (q * 100)).natAbs / 100)).data,
    Nat.digitChar ((jsRound (q * 100)).natAbs % 100 / 10 % 10),
    Nat.digitChar ((jsRound (q * 100)).natAbs % 100 % 10), ?_, ?_, ?_⟩
  · exact List.append_assoc _ _ _
  · exact digitChar_isDigit _ (Nat.mod_lt _ (by norm_num))
  · exact digitChar_isDigit _ (Nat.mod_lt _ (by norm_num))

theorem localeString1_data (q : ℚ) :
    ∃ pre a, (localeString1 q).data = pre ++ ['.', a] ∧ a.isDigit = true := by
  refine ⟨((if jsRound (q * 10) < 0 then "-" else "")
      ++ groupDigits ((jsRound (q * 10)).natAbs / 10)).data,
    Nat.digitChar ((jsRound (q * 10)).natAbs % 10 % 10), ?_, ?_⟩
  · exact List.append_assoc _ _ _
  · exact digitChar_isDigit _ (Nat.mod_lt _ (by norm_num))

theorem currency_shape (q : ℚ) :
    ∃ pre a b, ("$" ++ localeString2 q).data = '$' :: (pre ++ ['.', a, b]) ∧
      a.isDigit = true ∧ b.isDigit = true := by
  obtain ⟨pre, a, b, h, ha, hb⟩ := localeString2_data q
  exact ⟨pre, a, b, congrArg (List.cons '$') h, ha, hb⟩

theorem weight_shape (q : ℚ) :
    ∃ pre a, (localeString1 q ++ " kg").data = pre ++ ['.', a, ' ', 'k', 'g'] ∧
      a.isDigit = true := by
  obtain ⟨pre, a, h, ha⟩ := localeString1_data q
  refine ⟨pre, a, ?_, ha⟩
  have h2 : (localeString1 q ++ " kg").data = (pre ++ ['.', a]) ++ [' ', 'k', 'g'] := by
    show (localeString1 q).data ++ [' ', 'k', 'g'] = _
    rw [h]
  rw [h2, List.append_assoc]
  rfl

theorem dollar_ne_NaN (t : String) : ("$" ++ t) ≠ "NaN" := by
  intro h
  have hd : '$' :: t.data = ['N', 'a', 'N'] := congrArg String.data h
  injection hd with h1 h2
  exact absurd h1 (by decide)

theorem dollar_ne_null (t : String) : ("$" ++ t) ≠ "null" := by
  intro h
  have hd : '$' :: t.data = ['n', 'u', 'l', 'l'] := congrArg String.data h
  injection hd with h1 h2
  exact absurd h1 (by decide)

theorem kg_ne_NaN (x : String) : (x ++ " kg") ≠ "NaN" := by
  intro h
  have hd := congrArg (fun s : String => s.data.reverse) h
  simp at hd

theorem kg_ne_null (x : String) : (x ++ " kg") ≠ "null" := by
  intro h
  have hd := congrArg (fun s : String => s.data.reverse) h
  simp at hd

theorem fmtCurrency_cases (value : JSValue) :
    fmtCurrency value = "-" ∨ ∃ n, fmtCurrency value = "$" ++ localeString2N n := by
  cases value with
  | null => exact Or.inl rfl
  | str s =>
    by_cases hs : s = ""
    · subst hs
      exact Or.inl rfl
    · cases hp : parseFloatJS s with
      | none => exact Or.inl (by simp [fmtCurrency, hs, hp])
      | some n => exact Or.inr ⟨n, by simp [fmtCurrency, hs, hp]⟩
  | num q => exact Or.inr ⟨JSNum.finite q, rfl⟩

theorem fmtWeight_cases (value : JSValue) :
    fmtWeight value = "-" ∨ ∃ n, fmtWeight value = localeString1N n ++ " kg" := by
  cases value with
  | null => exact Or.inl rfl
  | str s =>
    by_cases hs : s = ""
    · subst hs
      exact Or.inl rfl
    · cases hp : parseFloatJS s with
      | none => exact Or.inl (by simp [fmtWeight, hs, hp])
      | some n => exact Or.inr ⟨n, by simp [fmtWeight, hs, hp]⟩
  | num q => exact Or.inr ⟨JSNum.finite q, rfl⟩

/-- Claim C9 (amended): whenever the input is or parses to a finite
number, the monetary formatter returns a dollar sign followed by a string
ending in a dot and exactly two digit characters, and the weight formatter
a string ending in a dot, one digit character and the kg suffix; a string
input parsing to an infinity renders as the (signed) infinity symbol with
the dollar sign resp. kg suffix; both formatters return the fixed
placeholder for null, empty-string or NaN input and never return the
literal strings NaN or null; the generic value accessor returns the
placeholder exactly for null or empty-string values and otherwise the raw
string form of the stored value (which the counterexample shows need not
be the placeholder nor numeric). -/
theorem numeric_formatting (value : JSValue) (cv : ConfidenceValue) :
    (∀ q, value = JSValue.num q →
      (∃ pre a b, (fmtCurrency value).data = '$' :: (pre ++ ['.', a, b]) ∧
        a.isDigit = true ∧ b.isDigit = true) ∧
      (∃ pre a, (fmtWeight value).data = pre ++ ['.', a, ' ', 'k', 'g'] ∧
        a.isDigit = true)) ∧
    (∀ s q, value = JSValue.str s → parseFloatJS s = some (JSNum.finite q) →
      (∃ pre a b, (fmtCurrency value).data = '$' :: (pre ++ ['.', a, b]) ∧
        a.isDigit = true ∧ b.isDigit = true) ∧
      (∃ pre a, (fmtWeight value).data = pre ++ ['.', a, ' ', 'k', 'g'] ∧
        a.isDigit = true)) ∧
    (∀ s, value = JSValue.str s →
      (parseFloatJS s = some JSNum.posInf →
        fmtCurrency value = "$∞" ∧ fmtWeight value = "∞ kg") ∧
      (parseFloatJS s = some JSNum.negInf →
        fmtCurrency value = "$-∞" ∧ fmtWeight value = "-∞ kg")) ∧
    ((value = JSValue.null ∨ value = JSValue.str "" ∨
        ∃ s, value = JSValue.str s ∧ parseFloatJS s = none) →
      fmtCurrency value = "-" ∧ fmtWeight value = "-") ∧
    fmtCurrency value ≠ "NaN" ∧
    fmtCurrency value ≠ "null" ∧
    fmtWeight value ≠ "NaN" ∧
    fmtWeight value ≠ "null" ∧
    ((cv.value = JSValue.null ∨ cv.value = JSValue.str "") → v cv = "-") ∧
    (∀ s, cv.value = JSValue.str s → s ≠ "" → v cv = s) ∧
    (∀ q, cv.value = JSValue.num q → v cv = jsString (JSValue.num q)) := by
  refine ⟨?_, ?_, ?_, ?_, ?_, ?_, ?_, ?_, ?_, ?_, ?_⟩
  · rintro q rfl
    exact ⟨currency_shape q, weight_shape q⟩
  · rintro s q rfl hpq
    by_cases hs : s = ""
    · subst hs
      have hnone : parseFloatJS "" = none := rfl
      rw [hnone] at hpq
      exact Option.noConfusion hpq
    · have hc : fmtCurrency (JSValue.str s) = "$" ++ localeString2 q := by
        simp [fmtCurrency, hs, hpq, localeString2N]
      have hw : fmtWeight (JSValue.str s) = localeString1 q ++ " kg" := by
        simp [fmtWeight, hs, hpq, localeString1N]
      rw [hc, hw]
      exact ⟨currency_shape q, weight_shape q⟩
  · rintro s rfl
    constructor
    · intro hp
      by_cases hs : s = ""
      · subst hs
        have hnone : parseFloatJS "" = none := rfl
        rw [hnone] at hp
        exact Option.noConfusion hp
      · constructor
        · have hc : fmtCurrency (JSValue.str s) = "$" ++ localeString2N JSNum.posInf := by
            simp [fmtCurrency, hs, hp]
          rw [hc]
          rfl
        · have hw : fmtWeight (JSValue.str s) = localeString1N JSNum.posInf ++ " kg" := by
            simp [fmtWeight, hs, hp]
          rw [hw]
          rfl
    · intro hp
      by_cases hs : s = ""
      · subst hs
        have hnone : parseFloatJS "" = none := rfl
        rw [hnone] at hp
        exact Option.noConfusion hp
      · constructor
        · have hc : fmtCurrency (JSValue.str s) = "$" ++ localeString2N JSNum.negInf := by
            simp [fmtCurrency, hs, hp]
          rw [hc]
          rfl
        · have hw : fmtWeight (JSValue.str s) = localeString1N JSNum.negInf ++ " kg" := by
            simp [fmtWeight, hs, hp]
          rw [hw]
          rfl
  · rintro (rfl | rfl | ⟨s, rfl, hpf⟩)
    · exact ⟨rfl, rfl⟩
    · exact ⟨rfl, rfl⟩
    · by_cases hs : s = ""
      · subst hs
        exact ⟨rfl, rfl⟩
      · exact ⟨by simp [fmtCurrency, hs, hpf], by simp [fmtWeight, hs, hpf]⟩
  · rcases fmtCurrency_cases value with h | ⟨n, h⟩ <;> rw [h]
    · decide
    · exact dollar_ne_NaN _
  · rcases fmtCurrency_cases value with h | ⟨n, h⟩ <;> rw [h]
    · decide
    · exact dollar_ne_null _
  · rcases fmtWeight_cases value with h | ⟨n, h⟩ <;> rw [h]
    · decide
    · exact kg_ne_NaN _
  · rcases fmtWeight_cases value with h | ⟨n, h⟩ <;> rw [h]
    · decide
    · exact kg_ne_null _
  · rintro (h | h) <;> simp [v, h]
  · rintro s h hs
    simp [v, h, hs]
  · rintro q h
    simp [v, h]

/-- Claim C9 counterexample: for the non-numeric string value `"NaN"` the
generic accessor `v` returns the raw string — the literal string NaN itself
— instead of the placeholder, refuting both the placeholder clause and the
never-NaN clause for the accessor (its input does not parse to a number). -/
theorem value_accessor_passes_raw_strings :
    v ⟨JSValue.str "NaN", 1⟩ = "NaN" ∧
    v ⟨JSValue.str "NaN", 1⟩ ≠ "-" ∧
    parseFloatJS "NaN" = none := by
  exact ⟨rfl, by decide, rfl⟩

/-- Witness for the amended C9 at concrete inputs: a non-parsing string
renders as the placeholder in both formatters, the string Infinity renders
as the dollar-signed infinity symbol resp. the infinity symbol with kg
suffix, a concrete number renders with a leading dollar sign, grouping and
two decimals and is not the NaN literal, the accessor renders null as the
placeholder and a non-empty string as itself. -/
theorem numeric_formatting_witness :
    (fmtCurrency (JSValue.str "abc") = "-" ∧ fmtWeight (JSValue.str "abc") = "-") ∧
    (fmtCurrency (JSValue.str "Infinity") = "$∞" ∧
      fmtWeight (JSValue.str "Infinity") = "∞ kg") ∧
    fmtCurrency (JSValue.num (2449/2)) ≠ "NaN" ∧
    v ⟨JSValue.null, 0⟩ = "-" ∧
    v ⟨JSValue.str "two boxes", 1⟩ = "two boxes" ∧
    fmtCurrency (JSValue.num (2449/2)) = "$1,224.50" := by
  refine ⟨?_, ?_, ?_, ?_, ?_, ?_⟩
  · exact (numeric_formatting (JSValue.str "abc") ⟨JSValue.null, 0⟩).2.2.2.1
      (Or.inr (Or.inr ⟨"abc", rfl, rfl⟩))
  · exact ((numeric_formatting (JSValue.str "Infinity") ⟨JSValue.null, 0⟩).2.2.1
      "Infinity" rfl).1 rfl
  · exact (numeric_formatting (JSValue.num (2449/2)) ⟨JSValue.null, 0⟩).2.2.2.2.1
  · exact (numeric_formatting (JSValue.num 0) ⟨JSValue.null, 0⟩).2.2.2.2.2.2.2.2.1
      (Or.inl rfl)
  · exact (numeric_formatting (JSValue.num 0)
      ⟨JSValue.str "two boxes", 1⟩).2.2.2.2.2.2.2.2.2.1 "two boxes" rfl (by decide)
  · have hr : jsRound ((2449/2 : ℚ) * 100) = 122450 := by
      have h : jsRound ((2449/2 : ℚ) * 100) = ⌊((2449/2 : ℚ) * 100 + 1/2)⌋ := rfl
      rw [h]
      norm_num
    show "$" ++ localeString2 (2449/2) = "$1,224.50"
    unfold localeString2
    rw [hr]
    rfl

end B2BSheet
